import Mathlib

/-!
Verification of the BetterBusBuffers Polygon Tool, Step 1
(`BBB_Polygons_Step1.py`): the polygon-flattening, stop-attribution and
cleanup kernel.

The script orchestrates a geometry pipeline:
* flatten the overlapping per-stop service-area polygons into a planar
  partition (`arcpy.management.FeatureToPolygon`, cluster tolerance
  "5 meters", in World Cylindrical Equal Area, WKID 54034);
* take one interior representative point per flattened polygon
  (`arcpy.management.FeatureToPoint` with option INSIDE);
* overlay those points with the original service-area polygons
  (`arcpy.analysis.Identity`), yielding stacked rows (ORIG_FID, stop_id);
* read the stacked rows, collecting FIDs whose stop_id is empty into
  `FIDsToDelete` and the rest into `AddToStackedPts`, which is bulk-inserted
  into the SQL table `StackedPoints`;
* delete from the flattened feature class every polygon with
  `Shape_Area = 0` or with OID in `FIDsToDelete`;
* set the `PolyID` field of the surviving polygons to their OID.

The geometry engine (arcpy) is external to the repository, so the geometric
operations are modelled from the spec over a discrete plane: a polygon's
geometry is the finite set of integer points it covers (represented as a
list, read up to membership), flattening partitions the covered points by
their coverage signature, and the cluster tolerance snaps coordinates to a
grid.  The row-processing, cleanup and error-handling logic is translated
directly from the Python source.
-/

set_option autoImplicit false

namespace BBB

/-- A point of the discrete plane. -/
abbrev Point : Type := ℤ × ℤ

/-- An original service-area polygon around one stop: its `stop_id` and the
set of points its geometry covers.  One per stop, produced by
`MakeServiceAreasAroundStops`; polygons of different stops may overlap. -/
structure Polygon where
  stop_id : String
  geometry : List Point
  deriving DecidableEq

instance : Inhabited Polygon := ⟨⟨"", []⟩⟩

/-- A flattened polygon (a cell of the planar partition), as stored in the
`Step1_FlatPolys` feature class: ObjectID, the `PolyID` field added by the
script (0 while still unset), geometry, and the `Shape_Area` measure. -/
structure FlatPoly where
  oid : ℕ
  polyID : ℕ
  geometry : List Point
  shape_Area : ℕ
  deriving DecidableEq

/-- Snap one coordinate to the cluster-tolerance grid (Modelled from the
spec: the vertex snapping performed inside `FeatureToPolygon` by its cluster
tolerance; vertices closer than the tolerance merge into a single vertex). -/
def snapCoord (tol : ℤ) (a : ℤ) : ℤ := tol * (a / tol)

/-- Snap a point to the cluster-tolerance grid. -/
def snapPoint (tol : ℤ) (p : Point) : Point := (snapCoord tol p.1, snapCoord tol p.2)

/-- Snap a whole geometry to the cluster-tolerance grid. -/
def snapPoly (tol : ℤ) (g : List Point) : List Point := g.map (snapPoint tol)

/-- The indices of the polygons of `polys` covering point `p`. -/
def coverageIdx (polys : List Polygon) (p : Point) : List ℕ :=
  (List.range polys.length).filter (fun i => p ∈ (polys.getD i default).geometry)

/-- All points covered by at least one polygon of `polys`, each once. -/
def coveredPoints (polys : List Polygon) : List Point :=
  (polys.flatMap Polygon.geometry).dedup

/-- The input polygons with every vertex snapped to the tolerance grid. -/
def snappedPolys (tol : ℤ) (polys : List Polygon) : List Polygon :=
  polys.map (fun q => Polygon.mk q.stop_id (snapPoly tol q.geometry))

/-- The points covered by the snapped polygons: the region flattening
partitions. -/
def flattenDomain (tol : ℤ) (polys : List Polygon) : List Point :=
  coveredPoints (snappedPolys tol polys)

/-- The distinct coverage signatures occurring on the flattening domain. -/
def flattenSigs (tol : ℤ) (polys : List Polygon) : List (List ℕ) :=
  ((flattenDomain tol polys).map (coverageIdx (snappedPolys tol polys))).dedup

/-- The `i`-th output cell of flattening: the points of the domain whose
coverage signature is the `i`-th distinct signature, with ObjectID `i + 1`,
`PolyID` still unset, and `Shape_Area` the measure of the cell. -/
def flattenCell (tol : ℤ) (polys : List Polygon) (i : ℕ) : FlatPoly :=
  let g := (flattenDomain tol polys).filter
    (fun p => coverageIdx (snappedPolys tol polys) p = (flattenSigs tol polys).getD i [])
  FlatPoly.mk (i + 1) 0 g g.length

/-- Modelled from the spec: `arcpy.management.FeatureToPolygon`, which the
source calls with cluster tolerance "5 meters" to flatten the overlapping
service-area polygons.  After snapping every vertex to the tolerance grid,
the covered points are partitioned by their coverage signature: one output
cell per distinct nonempty signature, with sequential ObjectIDs starting
at 1. -/
def flatten (tol : ℤ) (polys : List Polygon) : List FlatPoly :=
  (List.range (flattenSigs tol polys).length).map (flattenCell tol polys)

/-- The representative point of a cell (Modelled from the spec:
`arcpy.management.FeatureToPoint` with option INSIDE derives one point
guaranteed to lie inside the polygon; only interiority matters, so the model
picks the first point of the geometry). -/
def repPoint (g : List Point) : Point := g.headD (0, 0)

/-- The stacked rows produced for one representative point `fp` by the
Identity overlay: one row per original polygon containing the point,
carrying that polygon's `stop_id`; a point contained in no polygon yields a
single row whose `stop_id` is null (modelled as `""`). -/
def identityRowsFor (polys : List Polygon) (fp : ℕ × Point) : List (ℕ × String) :=
  let hits := polys.filter (fun q => fp.2 ∈ q.geometry)
  if hits.isEmpty then [(fp.1, "")] else hits.map (fun q => (fp.1, q.stop_id))

/-- Modelled from the spec: `arcpy.analysis.Identity` of the representative
points against the original service-area polygons. -/
def identityRows (polys : List Polygon) (pts : List (ℕ × Point)) : List (ℕ × String) :=
  pts.flatMap (identityRowsFor polys)

/-- The `FIDsToDelete` list of the source: FIDs of stacked rows whose
`stop_id` is empty (Python truthiness of `row[1]`). -/
def fidsToDelete (rows : List (ℕ × String)) : List ℕ :=
  (rows.filter (fun r => r.2 = "")).map Prod.fst

/-- The `AddToStackedPts` list of the source: the stacked rows whose
`stop_id` is non-empty, bulk-inserted into the SQL table `StackedPoints`. -/
def addToStackedPts (rows : List (ℕ × String)) : List (ℕ × String) :=
  rows.filter (fun r => ¬ r.2 = "")

/-- The `DeleteFeatures` call on the layer selected by the where clause
`"Shape_Area" = 0 OR OID IN FIDsToDelete`: only the unselected polygons
survive. -/
def deleteFeatures (cells : List FlatPoly) (fids : Finset ℕ) : List FlatPoly :=
  cells.filter (fun c => ¬ (c.shape_Area = 0 ∨ c.oid ∈ fids))

/-- The `CalculateField` call setting `PolyID` to the ObjectID. -/
def calculateFieldPolyID (cells : List FlatPoly) : List FlatPoly :=
  cells.map (fun c => { c with polyID := c.oid })

/-- The cleanup block of the source: delete the zero-area and unattributed
polygons, then set `PolyID` to the ObjectID of each survivor. -/
def cleanup (cells : List FlatPoly) (rows : List (ℕ × String)) : List FlatPoly :=
  calculateFieldPolyID (deleteFeatures cells (fidsToDelete rows).toFinset)

/-- The `links_for_cell` lookup of the AttributionStore: the set of stop_ids
of the rows of the SQL table `StackedPoints` whose `Polygon_FID` is the given
cell id. -/
def links_for_cell (table : List (ℕ × String)) (fid : ℕ) : Finset String :=
  ((table.filter (fun r => r.1 = fid)).map Prod.snd).toFinset

/-- The stop_ids of the original polygons covering point `p`. -/
def coveringStops (polys : List Polygon) (p : Point) : Finset String :=
  ((polys.filter (fun q => p ∈ q.geometry)).map Polygon.stop_id).toFinset

/-- The output of Step 1's post-processing: the final `Step1_FlatPolys`
feature class and the SQL table `StackedPoints` of (Polygon_FID, stop_id). -/
structure Step1Output where
  cells : List FlatPoly
  table : List (ℕ × String)
  deriving DecidableEq

/-- The representative points fed to the Identity overlay, tagged with the
ObjectID of their flattened polygon (`Step1_FlattenedPoints`). -/
def step1Pts (tol : ℤ) (polys : List Polygon) : List (ℕ × Point) :=
  (flatten tol polys).map (fun c => (c.oid, repPoint c.geometry))

/-- The stacked rows (`Step1_StackedPoints`) read by the cursor loop. -/
def step1Rows (tol : ℤ) (polys : List Polygon) : List (ℕ × String) :=
  identityRows polys (step1Pts tol polys)

/-- The post-processing block of `runTool` (lines 111-210): flatten the
service areas, derive one representative point per flattened polygon,
overlay against the original polygons, insert the attributed rows into the
SQL table, delete zero-area and unattributed polygons, set `PolyID`. -/
def postProcess (tol : ℤ) (polys : List Polygon) : Step1Output :=
  Step1Output.mk (cleanup (flatten tol polys) (step1Rows tol polys))
    (addToStackedPts (step1Rows tol polys))

/-- WKID of the World Cylindrical Equal Area projection the source assigns
to `arcpy.env.outputCoordinateSystem` before flattening. -/
def WorldCylindrical : ℕ := 54034

/-- The cluster tolerance of the source: `clusTol = "5 meters"`. -/
def clusTol : ℤ := 5

/-- The arcpy environment as far as the source sets it. -/
structure ArcEnv where
  outputCoordinateSystem : ℕ
  deriving DecidableEq

/-- The environment in force during flattening (line 114 of the source). -/
def step1Env : ArcEnv := ArcEnv.mk WorldCylindrical

/-- Step 1's whole geometry pipeline at the tolerance the source uses. -/
def runStep1 (polys : List Polygon) : Step1Output := postProcess clusTol polys

/-- A Python exception as far as `runTool` distinguishes them: the
`BBB_SharedFunctions.CustomError` raised by the shared validation helpers,
or any other exception. -/
inductive PyError where
  | customError (msg : String)
  | otherError (msg : String)
  deriving DecidableEq

/-- The outcome of each of the four staged bodies of `runTool`: set up the
run; make the feature class of GTFS stops; make the service areas; run the
post-processing. -/
structure StageResults where
  setup : Except PyError Unit
  stops : Except PyError Unit
  serviceAreas : Except PyError Unit
  postProcessing : Except PyError Unit

/-- The outer exception handlers of `runTool` (lines 229-234): a
`CustomError` is logged and swallowed (`pass`), anything else is logged and
re-raised. -/
def reraise (e : PyError) : Option PyError :=
  match e with
  | PyError.customError _ => none
  | PyError.otherError _ => some e

/-- The message `arcpy.AddError` logs in both outer handlers. -/
def failMsg : String := "Failed to create BetterBusBuffers polygons."

/-- The control flow of `runTool` (lines 45-234): each stage body runs in a
`try` whose handler logs a stage-identifying message and re-raises; the
outer handlers log `failMsg` and swallow a `CustomError` but re-raise
anything else.  Returns the logged error messages and the exception that
escapes to the caller, if any. -/
def runToolModel (s : StageResults) : List String × Option PyError :=
  let inner : List String × Option PyError :=
    match s.setup with
    | Except.error e => (["Error setting up run."], some e)
    | Except.ok _ =>
      match s.stops with
      | Except.error e => (["Error creating a feature class of GTFS stops."], some e)
      | Except.ok _ =>
        match s.serviceAreas with
        | Except.error e => (["Error creating service areas around stops."], some e)
        | Except.ok _ =>
          match s.postProcessing with
          | Except.error e => (["Error post-processing polygons"], some e)
          | Except.ok _ => ([], none)
  match inner.2 with
  | some e => (inner.1 ++ [failMsg], reraise e)
  | none => (inner.1, none)

/-- A file system: paths mapped to file contents, later writes first. -/
abbrev FS : Type := List (String × String)

/-- Read a file: the most recent content written at the path. -/
def fsRead (fs : FS) (p : String) : Option String :=
  (fs.find? (fun kv => kv.1 = p)).map Prod.snd

/-- Write a file (shadowing any earlier content at the path). -/
def fsWrite (fs : FS) (p v : String) : FS := (p, v) :: fs

/-- `shutil.copyfile`: read the source file, write its content at the
destination path. -/
def copyfile (src dst : String) (fs : FS) : FS :=
  match fsRead fs src with
  | some content => fsWrite fs dst content
  | none => fs

/-- The SQL table creation and insertion the source performs through the
`sqlite3` connection, abstracted as a content transformation `sqlOps`
applied in place to the database file at `dbPath`. -/
def sqlModify (dbPath : String) (sqlOps : String → String) (fs : FS) : FS :=
  match fsRead fs dbPath with
  | some content => fsWrite fs dbPath (sqlOps content)
  | none => fs

/-- The file behaviour of `runTool`: copy the input SQL database into the
output geodatabase as `Step1_GTFS.sql`, apply every SQL table creation and
insertion (abstracted as `sqlOps`) to that copy only, and write the other
outputs (`Step1_Stops`, `Step1_FlatPolys`) into the geodatabase. -/
def runToolFiles (outGDBwPath inSQLDbase : String) (sqlOps : String → String)
    (stopsData flatPolysData : String) (fs : FS) : FS :=
  fsWrite
    (fsWrite
      (sqlModify (outGDBwPath ++ "/Step1_GTFS.sql") sqlOps
        (copyfile inSQLDbase (outGDBwPath ++ "/Step1_GTFS.sql") fs))
      (outGDBwPath ++ "/Step1_Stops") stopsData)
    (outGDBwPath ++ "/Step1_FlatPolys") flatPolysData

/-! ### Helper lemmas -/

/-- Membership in the cleaned-up cell collection, unfolded. -/
lemma mem_cleanup {cells : List FlatPoly} {rows : List (ℕ × String)} {c : FlatPoly} :
    c ∈ cleanup cells rows ↔
      ∃ c0 ∈ cells, ¬ (c0.shape_Area = 0 ∨ c0.oid ∈ (fidsToDelete rows).toFinset) ∧
        c = { c0 with polyID := c0.oid } := by
  simp only [cleanup, calculateFieldPolyID, deleteFeatures, List.mem_map, List.mem_filter,
    decide_eq_true_eq]
  constructor
  · rintro ⟨c0, ⟨hc0, hkeep⟩, rfl⟩
    exact ⟨c0, hc0, hkeep, rfl⟩
  · rintro ⟨c0, hc0, hkeep, rfl⟩
    exact ⟨c0, ⟨hc0, hkeep⟩, rfl⟩

/-- Membership in `FIDsToDelete`, unfolded. -/
lemma mem_fidsToDelete {rows : List (ℕ × String)} {a : ℕ} :
    a ∈ fidsToDelete rows ↔ ∃ r ∈ rows, r.2 = "" ∧ r.1 = a := by
  simp only [fidsToDelete, List.mem_map, List.mem_filter, decide_eq_true_eq]
  constructor
  · rintro ⟨r, ⟨hr, he⟩, rfl⟩
    exact ⟨r, hr, he, rfl⟩
  · rintro ⟨r, hr, he, rfl⟩
    exact ⟨r, ⟨hr, he⟩, rfl⟩

/-- Membership in the SQL table `StackedPoints`, unfolded. -/
lemma mem_addToStackedPts {rows : List (ℕ × String)} {r : ℕ × String} :
    r ∈ addToStackedPts rows ↔ r ∈ rows ∧ ¬ r.2 = "" := by
  simp [addToStackedPts, List.mem_filter]

/-- Reading after writing: the write shadows exactly its own path. -/
lemma fsRead_fsWrite (fs : FS) (q v p) :
    fsRead (fsWrite fs q v) p = if q = p then some v else fsRead fs p := by
  by_cases h : q = p <;> simp [fsRead, fsWrite, List.find?, h]

/-- The representative point of a nonempty geometry lies inside it. -/
lemma repPoint_mem {g : List Point} (h : g ≠ []) : repPoint g ∈ g := by
  cases g with
  | nil => exact absurd rfl h
  | cons a t => exact List.mem_cons_self a t

/-- In a duplicate-free list, exactly one index holds a given member. -/
lemma countP_range_getD_eq_one {α : Type} [DecidableEq α] (d : α) :
    ∀ (l : List α), l.Nodup → ∀ a ∈ l,
      (List.range l.length).countP (fun i => l.getD i d = a) = 1 := by
  intro l
  induction l with
  | nil => exact fun _ a ha => absurd ha (List.not_mem_nil a)
  | cons b t ih =>
    intro hnd a ha
    obtain ⟨hbt, hndt⟩ := List.nodup_cons.mp hnd
    rw [List.length_cons, List.range_succ_eq_map, List.countP_cons, List.countP_map]
    rcases List.mem_cons.mp ha with hb | ht
    · subst hb
      have hzero : (List.range t.length).countP
          ((fun i => decide ((a :: t).getD i d = a)) ∘ Nat.succ) = 0 := by
        rw [List.countP_eq_zero]
        intro i hi
        rw [List.mem_range] at hi
        simp only [Function.comp, List.getD_cons_succ, decide_eq_true_eq]
        rw [List.getD_eq_get t d hi]
        exact fun hEq => hbt (hEq ▸ List.get_mem t i hi)
      rw [hzero]
      simp
    · have hne : ¬ b = a := fun hEq => hbt (hEq ▸ ht)
      have hstep : (List.range t.length).countP
          ((fun i => decide ((b :: t).getD i d = a)) ∘ Nat.succ) =
            (List.range t.length).countP (fun i => t.getD i d = a) := by
        apply List.countP_congr
        intro i _
        simp [Function.comp, List.getD_cons_succ]
      rw [hstep, ih hndt a ht]
      simp [hne]

/-- In a duplicate-free list, `getD` is injective below the length. -/
lemma nodup_getD_inj {α : Type} {l : List α} (hnd : l.Nodup) (d : α) {i j : ℕ}
    (hi : i < l.length) (hj : j < l.length) (h : l.getD i d = l.getD j d) : i = j := by
  rw [List.getD_eq_get l d hi, List.getD_eq_get l d hj] at h
  have hf := (List.Nodup.get_inj_iff hnd).mp h
  exact congrArg Fin.val hf

/-- Membership in the flattened collection, unfolded. -/
lemma mem_flatten {tol : ℤ} {polys : List Polygon} {c : FlatPoly} :
    c ∈ flatten tol polys ↔
      ∃ i, i < (flattenSigs tol polys).length ∧ flattenCell tol polys i = c := by
  simp [flatten, List.mem_map, List.mem_range]

/-- Membership in a flattened cell's geometry, unfolded. -/
lemma mem_flattenCell_geometry {tol : ℤ} {polys : List Polygon} {i : ℕ} {p : Point} :
    p ∈ (flattenCell tol polys i).geometry ↔
      p ∈ flattenDomain tol polys ∧
        coverageIdx (snappedPolys tol polys) p = (flattenSigs tol polys).getD i [] := by
  simp [flattenCell, List.mem_filter]

/-- Every domain point's coverage signature is a recorded signature. -/
lemma coverageIdx_mem_flattenSigs {tol : ℤ} {polys : List Polygon} {p : Point}
    (hp : p ∈ flattenDomain tol polys) :
    coverageIdx (snappedPolys tol polys) p ∈ flattenSigs tol polys := by
  rw [flattenSigs, List.mem_dedup]
  exact List.mem_map_of_mem _ hp

/-- Indexing below the length lands inside the signature list. -/
lemma flattenSigs_getD_mem {tol : ℤ} {polys : List Polygon} {i : ℕ}
    (hi : i < (flattenSigs tol polys).length) :
    (flattenSigs tol polys).getD i [] ∈ flattenSigs tol polys := by
  rw [List.getD_eq_get _ _ hi]
  exact List.get_mem _ _ _

/-- Every recorded signature is witnessed by some domain point. -/
lemma exists_point_of_mem_flattenSigs {tol : ℤ} {polys : List Polygon} {s : List ℕ}
    (hs : s ∈ flattenSigs tol polys) :
    ∃ p ∈ flattenDomain tol polys, coverageIdx (snappedPolys tol polys) p = s := by
  rw [flattenSigs, List.mem_dedup, List.mem_map] at hs
  exact hs

/-- Flattened cells have nonempty geometry (in this discrete model). -/
lemma flatten_geometry_ne_nil {tol : ℤ} {polys : List Polygon} {c : FlatPoly}
    (hc : c ∈ flatten tol polys) : c.geometry ≠ [] := by
  obtain ⟨i, hi, rfl⟩ := mem_flatten.mp hc
  obtain ⟨p, hp, hsig⟩ := exists_point_of_mem_flattenSigs (flattenSigs_getD_mem hi)
  exact List.ne_nil_of_mem (mem_flattenCell_geometry.mpr ⟨hp, hsig⟩)

/-- Flattening assigns ObjectIDs sequentially from 1. -/
lemma flatten_map_oid (tol : ℤ) (polys : List Polygon) :
    (flatten tol polys).map FlatPoly.oid = List.range' 1 (flatten tol polys).length := by
  simp only [flatten, List.map_map, List.length_map, List.length_range]
  rw [List.range'_eq_map_range]
  exact List.map_congr_left (fun i _ => by simp [Function.comp, flattenCell, Nat.add_comm])

/-- The flattening domain consists of the snapped images of the covered
points of the input polygons. -/
lemma mem_flattenDomain {tol : ℤ} {polys : List Polygon} {p : Point} :
    p ∈ flattenDomain tol polys ↔
      ∃ q ∈ polys, ∃ p0 ∈ q.geometry, snapPoint tol p0 = p := by
  simp [flattenDomain, coveredPoints, snappedPolys, List.mem_dedup, List.mem_flatMap,
    List.mem_map, snapPoly]

/-- Snapping a coordinate moves it down by less than the tolerance. -/
lemma snapCoord_displacement {tol : ℤ} (htol : 0 < tol) (a : ℤ) :
    0 ≤ a - snapCoord tol a ∧ a - snapCoord tol a < tol := by
  have hdm := Int.ediv_add_emod a tol
  have h0 := Int.emod_nonneg a (ne_of_gt htol)
  have h1 := Int.emod_lt_of_pos a htol
  unfold snapCoord
  omega

/-- Snapping is idempotent: grid points are fixed. -/
lemma snapCoord_idem {tol : ℤ} (htol : tol ≠ 0) (a : ℤ) :
    snapCoord tol (snapCoord tol a) = snapCoord tol a := by
  unfold snapCoord
  rw [Int.mul_ediv_cancel_left _ htol]

/-- Snapping a point is idempotent. -/
lemma snapPoint_idem {tol : ℤ} (htol : tol ≠ 0) (p : Point) :
    snapPoint tol (snapPoint tol p) = snapPoint tol p := by
  unfold snapPoint
  rw [snapCoord_idem htol, snapCoord_idem htol]

/-- Distinct snapped coordinates are at least the tolerance apart: all
vertices within the snapping distance of a snapped vertex merge into it. -/
lemma snapCoord_separation {tol : ℤ} (htol : 0 < tol) (a b : ℤ)
    (h : snapCoord tol a ≠ snapCoord tol b) :
    tol ≤ |snapCoord tol a - snapCoord tol b| := by
  unfold snapCoord at h ⊢
  rw [← Int.mul_sub, abs_mul, abs_of_pos htol]
  have h1 : a / tol - b / tol ≠ 0 := fun hz => h (by rw [Int.sub_eq_zero] at hz; rw [hz])
  have h2 := Int.one_le_abs h1
  nlinarith [abs_nonneg (a / tol - b / tol)]

/-- Distinct flattened cells have disjoint geometries. -/
lemma flatten_disjoint {tol : ℤ} {polys : List Polygon} {c1 c2 : FlatPoly}
    (h1 : c1 ∈ flatten tol polys) (h2 : c2 ∈ flatten tol polys) (hne : c1.oid ≠ c2.oid)
    {x : Point} (hx1 : x ∈ c1.geometry) (hx2 : x ∈ c2.geometry) : False := by
  obtain ⟨i, hi, rfl⟩ := mem_flatten.mp h1
  obtain ⟨j, hj, rfl⟩ := mem_flatten.mp h2
  obtain ⟨-, hsi⟩ := mem_flattenCell_geometry.mp hx1
  obtain ⟨-, hsj⟩ := mem_flattenCell_geometry.mp hx2
  exact hne (congrArg (· + 1)
    (nodup_getD_inj (List.nodup_dedup _) ([] : List ℕ) hi hj (hsi ▸ hsj)))

/-- Every domain point lies in exactly one flattened cell. -/
lemma flatten_countP_eq_one {tol : ℤ} {polys : List Polygon} {p : Point}
    (hp : p ∈ flattenDomain tol polys) :
    (flatten tol polys).countP (fun c => p ∈ c.geometry) = 1 := by
  unfold flatten
  rw [List.countP_map]
  have hcong : (List.range (flattenSigs tol polys).length).countP
      ((fun c => decide (p ∈ c.geometry)) ∘ flattenCell tol polys) =
      (List.range (flattenSigs tol polys).length).countP
        (fun i => (flattenSigs tol polys).getD i [] =
          coverageIdx (snappedPolys tol polys) p) := by
    apply List.countP_congr
    intro i _
    simp only [Function.comp, decide_eq_true_eq, mem_flattenCell_geometry]
    constructor
    · exact fun hmem => hmem.2.symm
    · exact fun hEq => ⟨hp, hEq.symm⟩
  rw [hcong]
  exact countP_range_getD_eq_one ([] : List ℕ) (flattenSigs tol polys)
    (List.nodup_dedup _) _ (coverageIdx_mem_flattenSigs hp)

/-- Every row the Identity overlay produces for `fp` carries `fp`'s FID. -/
lemma identityRowsFor_fst {polys : List Polygon} {fp : ℕ × Point} {r : ℕ × String}
    (hr : r ∈ identityRowsFor polys fp) : r.1 = fp.1 := by
  unfold identityRowsFor at hr
  by_cases hE : (polys.filter (fun q => fp.2 ∈ q.geometry)).isEmpty
  · rw [if_pos hE, List.mem_singleton] at hr
    rw [hr]
  · rw [if_neg hE] at hr
    obtain ⟨q, -, rfl⟩ := List.mem_map.mp hr
    rfl

/-- Every stacked row's FID is the FID of some input point. -/
lemma mem_identityRows_fst {polys : List Polygon} {pts : List (ℕ × Point)}
    {r : ℕ × String} (hr : r ∈ identityRows polys pts) : r.1 ∈ pts.map Prod.fst := by
  obtain ⟨fp, hfp, hrf⟩ := List.mem_flatMap.mp hr
  rw [identityRowsFor_fst hrf]
  exact List.mem_map_of_mem _ hfp

/-- With duplicate-free FIDs, the stacked rows with a given FID are exactly
the rows the Identity overlay produced for that FID's point. -/
lemma filter_identityRows (polys : List Polygon) :
    ∀ (pts : List (ℕ × Point)) {fid : ℕ} {p : Point},
      (pts.map Prod.fst).Nodup → (fid, p) ∈ pts →
      (identityRows polys pts).filter (fun r => r.1 = fid) =
        identityRowsFor polys (fid, p) := by
  intro pts
  induction pts with
  | nil => exact fun _ h => absurd h (List.not_mem_nil _)
  | cons fp rest ih =>
    intro fid p hnd hmem
    have hnd' : (fp.1 :: rest.map Prod.fst).Nodup := by simpa using hnd
    obtain ⟨hhead, htail⟩ := List.nodup_cons.mp hnd'
    rw [identityRows, List.flatMap_cons, List.filter_append]
    rcases List.mem_cons.mp hmem with heq | hrest
    · have hfp1 : fp.1 = fid := by rw [← heq]
      have h1 : (identityRowsFor polys fp).filter (fun r => r.1 = fid) =
          identityRowsFor polys fp :=
        List.filter_eq_self.mpr (fun r hr => by
          simp [identityRowsFor_fst hr, hfp1])
      have h2 : (rest.flatMap (identityRowsFor polys)).filter (fun r => r.1 = fid) = [] := by
        rw [List.filter_eq_nil_iff]
        intro r hr
        simp only [decide_eq_true_eq]
        intro hEq
        apply hhead
        rw [hfp1, ← hEq]
        exact mem_identityRows_fst hr
      rw [h1, h2, List.append_nil, ← heq]
    · have hfp_ne : fp.1 ≠ fid := by
        intro hEq
        apply hhead
        rw [hEq]
        exact List.mem_map.mpr ⟨(fid, p), hrest, rfl⟩
      have h1 : (identityRowsFor polys fp).filter (fun r => r.1 = fid) = [] := by
        rw [List.filter_eq_nil_iff]
        intro r hr
        simp [identityRowsFor_fst hr, hfp_ne]
      rw [h1, List.nil_append]
      exact ih htail hrest

/-- The FIDs of the representative points are duplicate-free. -/
lemma step1Pts_fst_nodup (tol : ℤ) (polys : List Polygon) :
    ((step1Pts tol polys).map Prod.fst).Nodup := by
  have hmap : (step1Pts tol polys).map Prod.fst = (flatten tol polys).map FlatPoly.oid := by
    simp [step1Pts, List.map_map, Function.comp]
  rw [hmap, flatten_map_oid]
  exact List.nodup_range' _ _

/-- Each flattened cell contributes its representative point. -/
lemma mem_step1Pts {tol : ℤ} {polys : List Polygon} {c : FlatPoly}
    (hc : c ∈ flatten tol polys) :
    (c.oid, repPoint c.geometry) ∈ step1Pts tol polys :=
  List.mem_map_of_mem _ hc

/-- The stored links of a flattened cell are exactly the stop_ids of the
original polygons covering its representative point (stop_ids assumed
non-null). -/
lemma links_for_cell_step1 {tol : ℤ} {polys : List Polygon}
    (h : ∀ q ∈ polys, q.stop_id ≠ "") {c : FlatPoly} (hc : c ∈ flatten tol polys) :
    links_for_cell (addToStackedPts (step1Rows tol polys)) c.oid =
      coveringStops polys (repPoint c.geometry) := by
  have hfil := filter_identityRows polys (step1Pts tol polys)
    (step1Pts_fst_nodup tol polys) (mem_step1Pts hc)
  have hcomm : (addToStackedPts (step1Rows tol polys)).filter (fun r => r.1 = c.oid) =
      ((step1Rows tol polys).filter (fun r => r.1 = c.oid)).filter
        (fun r => ¬ r.2 = "") := by
    unfold addToStackedPts
    rw [List.filter_filter, List.filter_filter]
    exact List.filter_congr (fun r _ => Bool.and_comm _ _)
  unfold links_for_cell
  rw [hcomm]
  unfold step1Rows
  rw [hfil]
  unfold identityRowsFor coveringStops
  by_cases hE : (polys.filter (fun q => repPoint c.geometry ∈ q.geometry)).isEmpty
  · rw [List.isEmpty_iff] at hE
    simp [hE]
  · rw [if_neg (by simpa using hE)]
    rw [List.filter_map]
    have hall : (polys.filter (fun q => repPoint c.geometry ∈ q.geometry)).filter
        ((fun r : ℕ × String => ¬ r.2 = "") ∘ (fun q => (c.oid, q.stop_id))) =
        polys.filter (fun q => repPoint c.geometry ∈ q.geometry) :=
      List.filter_eq_self.mpr (fun q hq => by
        simp [Function.comp, h q (List.mem_filter.mp hq).1])
    rw [hall, List.map_map]
    rfl

/-! ### Claim C6 -/

/-- Claim C6: for an empty input BufferPolygon collection, the run produces
an empty Cell collection and an empty CellStopLink relation (the pipeline is
total here: no error path is taken). -/
theorem claim_C6 : runStep1 [] = Step1Output.mk [] [] := by rfl

/-! ### Claim C8 -/

/-- Claim C8: cleanup is idempotent on identifiers: on an already-clean cell
collection (no zero-area cell, no cell marked unattributed, `PolyID` already
equal to the OID as a previous cleanup leaves it), the cleanup-and-renumber
step returns the collection unchanged. -/
theorem claim_C8 (cells : List FlatPoly) (rows : List (ℕ × String))
    (h : ∀ c ∈ cells, c.shape_Area ≠ 0 ∧ c.oid ∉ (fidsToDelete rows).toFinset ∧
      c.polyID = c.oid) :
    cleanup cells rows = cells := by
  unfold cleanup
  have hfil : deleteFeatures cells (fidsToDelete rows).toFinset = cells := by
    simp only [deleteFeatures]
    rw [List.filter_eq_self]
    intro c hc
    obtain ⟨h1, h2, _⟩ := h c hc
    simp [h1, h2]
  rw [hfil]
  simp only [calculateFieldPolyID]
  have hid : ∀ c ∈ cells, ({ c with polyID := c.oid } : FlatPoly) = c := by
    intro c hc
    obtain ⟨_, _, h3⟩ := h c hc
    cases c
    simp_all
  calc cells.map (fun c => { c with polyID := c.oid })
      = cells.map id := List.map_congr_left hid
    _ = cells := List.map_id cells

/-- Witness for C8 at a concrete clean collection. -/
theorem claim_C8_witness :
    (∀ c ∈ [FlatPoly.mk 1 1 [((0 : ℤ), (0 : ℤ))] 1],
        c.shape_Area ≠ 0 ∧ c.oid ∉ (fidsToDelete [(1, "S1")]).toFinset ∧ c.polyID = c.oid) ∧
      cleanup [FlatPoly.mk 1 1 [((0 : ℤ), (0 : ℤ))] 1] [(1, "S1")] =
        [FlatPoly.mk 1 1 [((0 : ℤ), (0 : ℤ))] 1] :=
  ⟨by decide, claim_C8 _ _ (by decide)⟩

/-! ### Claim C4 -/

/-- Counterexample to C4: a zero-area cell whose representative point was
attributed to stop "S1".  Cleanup deletes the cell but the SQL table still
holds the row (1, "S1"), so the final CellStopLink relation references a
cell absent from the final Cell collection. -/
theorem claim_C4_cex :
    ¬ (∀ r ∈ addToStackedPts [((1 : ℕ), "S1")],
        ∃ c ∈ cleanup [FlatPoly.mk 1 0 [((0 : ℤ), (0 : ℤ))] 0] [((1 : ℕ), "S1")],
          c.oid = r.1) := by decide

/-- Claim C4, amended: no cascade deletion is performed on the CellStopLink
relation at all.  Rows for unattributed cells are never inserted, so when no
cell has zero area, every row's FID is a cell FID, and each FID's rows are
uniformly empty or uniformly non-empty (as the Identity overlay guarantees),
every row of the final relation references a surviving cell; rows
referencing deleted zero-area cells, however, remain in the relation. -/
theorem claim_C4_amended (cells : List FlatPoly) (rows : List (ℕ × String))
    (h1 : ∀ c ∈ cells, c.shape_Area ≠ 0)
    (h2 : ∀ r ∈ rows, ∃ c ∈ cells, c.oid = r.1)
    (h3 : ∀ r ∈ rows, ∀ s ∈ rows, r.1 = s.1 → (r.2 = "" ↔ s.2 = "")) :
    ∀ r ∈ addToStackedPts rows, ∃ c ∈ cleanup cells rows, c.oid = r.1 := by
  intro r hr
  obtain ⟨hrmem, hrne⟩ := mem_addToStackedPts.mp hr
  obtain ⟨c0, hc0, hoid⟩ := h2 r hrmem
  refine ⟨{ c0 with polyID := c0.oid }, ?_, hoid⟩
  refine mem_cleanup.mpr ⟨c0, hc0, ?_, rfl⟩
  push_neg
  refine ⟨h1 c0 hc0, ?_⟩
  intro hin
  rw [List.mem_toFinset, mem_fidsToDelete] at hin
  obtain ⟨s, hs, hse, hsf⟩ := hin
  exact hrne ((h3 r hrmem s hs (by rw [hoid] at hsf; exact hsf.symm)).mpr hse)

/-- Witness for the amended C4 at a concrete clean input. -/
theorem claim_C4_amended_witness :
    (∀ c ∈ [FlatPoly.mk 1 0 [((0 : ℤ), (0 : ℤ))] 2], c.shape_Area ≠ 0) ∧
      (∀ r ∈ [((1 : ℕ), "S1")], ∃ c ∈ [FlatPoly.mk 1 0 [((0 : ℤ), (0 : ℤ))] 2], c.oid = r.1) ∧
      (∀ r ∈ [((1 : ℕ), "S1")], ∀ s ∈ [((1 : ℕ), "S1")], r.1 = s.1 → (r.2 = "" ↔ s.2 = "")) ∧
      (∀ r ∈ addToStackedPts [((1 : ℕ), "S1")],
        ∃ c ∈ cleanup [FlatPoly.mk 1 0 [((0 : ℤ), (0 : ℤ))] 2] [((1 : ℕ), "S1")], c.oid = r.1) :=
  ⟨by decide, by decide, by decide,
    claim_C4_amended _ _ (by decide) (by decide) (by decide)⟩

/-! ### Claim C5 -/

/-- Counterexample to C5: two unit-area cells with OIDs 1 and 2; cell 1 is
unattributed (its stacked row has an empty stop_id) and is deleted.  The
surviving cell keeps `PolyID = 2` although it is the first (and only)
feature of the output, so `cell_id` is not the position and the sequence has
a gap. -/
theorem claim_C5_cex :
    ¬ ((cleanup [FlatPoly.mk 1 0 [((0 : ℤ), (0 : ℤ))] 1, FlatPoly.mk 2 0 [((5 : ℤ), (5 : ℤ))] 1]
          [(1, ""), (2, "S2")]).map FlatPoly.polyID =
        List.range' 1 (cleanup [FlatPoly.mk 1 0 [((0 : ℤ), (0 : ℤ))] 1,
          FlatPoly.mk 2 0 [((5 : ℤ), (5 : ℤ))] 1] [(1, ""), (2, "S2")]).length) := by decide

/-- Claim C5, amended: cleanup sets each surviving cell's `PolyID` to its
ObjectID.  The OIDs were assigned sequentially from 1 at flattening, so when
cleanup deletes nothing the `PolyID`s are exactly the positions 1..n of the
output feature set; when cells are deleted the surviving `PolyID`s keep
their pre-deletion OIDs, remaining unique and stable but leaving gaps. -/
theorem claim_C5_amended :
    (∀ (cells : List FlatPoly) (rows : List (ℕ × String)),
        ∀ c ∈ cleanup cells rows, c.polyID = c.oid) ∧
      (∀ (tol : ℤ) (polys : List Polygon),
        (flatten tol polys).map FlatPoly.oid = List.range' 1 (flatten tol polys).length) ∧
      (∀ (cells : List FlatPoly) (rows : List (ℕ × String)),
        (∀ c ∈ cells, ¬ (c.shape_Area = 0 ∨ c.oid ∈ (fidsToDelete rows).toFinset)) →
          (cleanup cells rows).map FlatPoly.polyID = cells.map FlatPoly.oid) := by
  refine ⟨?_, ?_, ?_⟩
  · intro cells rows c hc
    obtain ⟨c0, _, _, rfl⟩ := mem_cleanup.mp hc
    rfl
  · intro tol polys
    simp only [flatten, List.map_map, List.length_map, List.length_range]
    rw [List.range'_eq_map_range]
    exact List.map_congr_left (fun i _ => by simp [Function.comp, flattenCell, Nat.add_comm])
  · intro cells rows hkeep
    have hfil : deleteFeatures cells (fidsToDelete rows).toFinset = cells := by
      simp only [deleteFeatures]
      rw [List.filter_eq_self]
      intro c hc
      simpa using hkeep c hc
    simp [cleanup, hfil, calculateFieldPolyID, List.map_map, Function.comp]

/-- Witness for the amended C5 at concrete inputs. -/
theorem claim_C5_amended_witness :
    (∀ c ∈ cleanup [FlatPoly.mk 1 0 [((0 : ℤ), (0 : ℤ))] 1] [(1, "S1")], c.polyID = c.oid) ∧
      (flatten 5 [Polygon.mk "A" [((0 : ℤ), (0 : ℤ))]]).map FlatPoly.oid =
        List.range' 1 (flatten 5 [Polygon.mk "A" [((0 : ℤ), (0 : ℤ))]]).length ∧
      ((∀ c ∈ [FlatPoly.mk 1 0 [((0 : ℤ), (0 : ℤ))] 1],
          ¬ (c.shape_Area = 0 ∨ c.oid ∈ (fidsToDelete [((1 : ℕ), "S1")]).toFinset)) ∧
        (cleanup [FlatPoly.mk 1 0 [((0 : ℤ), (0 : ℤ))] 1] [((1 : ℕ), "S1")]).map FlatPoly.polyID =
          [FlatPoly.mk 1 0 [((0 : ℤ), (0 : ℤ))] 1].map FlatPoly.oid) :=
  ⟨claim_C5_amended.1 _ [(1, "S1")], claim_C5_amended.2.1 5 _,
    by decide, claim_C5_amended.2.2 _ _ (by decide)⟩

/-! ### Claim C7 -/

/-- Counterexample to C7: a `CustomError` raised while setting up the run is
caught by the outer handler, logged, and swallowed (`pass`), so no error
reaches the caller even though a stage failed. -/
theorem claim_C7_cex :
    runToolModel (StageResults.mk (Except.error (PyError.customError "license check failed"))
        (Except.ok ()) (Except.ok ()) (Except.ok ())) =
      (["Error setting up run.", failMsg], none) := by rfl

/-- Claim C7, amended: the first failing stage logs a stage-identifying
message and aborts the remaining stages, and no stage is retried; an error
other than `CustomError` is then re-raised to the caller, but a
`CustomError` is logged (`failMsg`) and swallowed, the run returning without
raising. -/
theorem claim_C7_amended (s : StageResults) (e : PyError) :
    (s.setup = Except.error e →
        runToolModel s = (["Error setting up run.", failMsg], reraise e)) ∧
      (s.setup = Except.ok () → s.stops = Except.error e →
        runToolModel s = (["Error creating a feature class of GTFS stops.", failMsg], reraise e)) ∧
      (s.setup = Except.ok () → s.stops = Except.ok () → s.serviceAreas = Except.error e →
        runToolModel s = (["Error creating service areas around stops.", failMsg], reraise e)) ∧
      (s.setup = Except.ok () → s.stops = Except.ok () → s.serviceAreas = Except.ok () →
        s.postProcessing = Except.error e →
        runToolModel s = (["Error post-processing polygons", failMsg], reraise e)) ∧
      (s.setup = Except.ok () → s.stops = Except.ok () → s.serviceAreas = Except.ok () →
        s.postProcessing = Except.ok () → runToolModel s = ([], none)) := by
  obtain ⟨su, st, sa, pp⟩ := s
  refine ⟨?_, ?_, ?_, ?_, ?_⟩ <;> intros <;> simp_all [runToolModel]

/-- Witness for the amended C7: a non-CustomError in the stops stage is
re-raised with the stage context logged. -/
theorem claim_C7_amended_witness :
    runToolModel (StageResults.mk (Except.ok ())
        (Except.error (PyError.otherError "bad GTFS table")) (Except.ok ()) (Except.ok ())) =
      (["Error creating a feature class of GTFS stops.", failMsg],
        some (PyError.otherError "bad GTFS table")) :=
  (claim_C7_amended (StageResults.mk (Except.ok ())
    (Except.error (PyError.otherError "bad GTFS table")) (Except.ok ()) (Except.ok ()))
    (PyError.otherError "bad GTFS table")).2.1 rfl rfl

/-! ### Claim C10 -/

/-- Claim C10: the input SQL database file is never modified: its content is
copied into the output geodatabase as `Step1_GTFS.sql`, all SQL table
creation and insertion happens on the copy, and the content at the input
path is unchanged at the end of the run. -/
theorem claim_C10 (outGDBwPath inSQLDbase : String) (sqlOps : String → String)
    (stopsData flatPolysData : String) (fs : FS) (content : String)
    (h1 : inSQLDbase ≠ outGDBwPath ++ "/Step1_GTFS.sql")
    (h2 : inSQLDbase ≠ outGDBwPath ++ "/Step1_Stops")
    (h3 : inSQLDbase ≠ outGDBwPath ++ "/Step1_FlatPolys")
    (h4 : fsRead fs inSQLDbase = some content) :
    fsRead (runToolFiles outGDBwPath inSQLDbase sqlOps stopsData flatPolysData fs)
        inSQLDbase = some content ∧
      fsRead (runToolFiles outGDBwPath inSQLDbase sqlOps stopsData flatPolysData fs)
        (outGDBwPath ++ "/Step1_GTFS.sql") = some (sqlOps content) := by
  have hcopy : copyfile inSQLDbase (outGDBwPath ++ "/Step1_GTFS.sql") fs =
      fsWrite fs (outGDBwPath ++ "/Step1_GTFS.sql") content := by
    unfold copyfile
    rw [h4]
  have hsql : sqlModify (outGDBwPath ++ "/Step1_GTFS.sql") sqlOps
      (copyfile inSQLDbase (outGDBwPath ++ "/Step1_GTFS.sql") fs) =
      fsWrite (fsWrite fs (outGDBwPath ++ "/Step1_GTFS.sql") content)
        (outGDBwPath ++ "/Step1_GTFS.sql") (sqlOps content) := by
    rw [hcopy]
    unfold sqlModify
    rw [fsRead_fsWrite, if_pos rfl]
  unfold runToolFiles
  rw [hsql]
  constructor
  · rw [fsRead_fsWrite, if_neg (fun h => h3 h.symm), fsRead_fsWrite,
      if_neg (fun h => h2 h.symm), fsRead_fsWrite, if_neg (fun h => h1 h.symm),
      fsRead_fsWrite, if_neg (fun h => h1 h.symm)]
    exact h4
  · rw [fsRead_fsWrite, if_neg ?_, fsRead_fsWrite, if_neg ?_, fsRead_fsWrite, if_pos rfl]
    · intro h
      have hd := congrArg String.data h
      rw [String.data_append, String.data_append] at hd
      exact absurd (String.ext (List.append_cancel_left hd)) (by decide)
    · intro h
      have hd := congrArg String.data h
      rw [String.data_append, String.data_append] at hd
      exact absurd (String.ext (List.append_cancel_left hd)) (by decide)

/-- Witness for C10 at a concrete file system. -/
theorem claim_C10_witness :
    ("in.sql" ≠ "out.gdb" ++ "/Step1_GTFS.sql") ∧
      ("in.sql" ≠ "out.gdb" ++ "/Step1_Stops") ∧
      ("in.sql" ≠ "out.gdb" ++ "/Step1_FlatPolys") ∧
      fsRead [("in.sql", "ORIG")] "in.sql" = some "ORIG" ∧
      fsRead (runToolFiles "out.gdb" "in.sql" (fun s => s ++ "+tables") "stops" "flatpolys"
        [("in.sql", "ORIG")]) "in.sql" = some "ORIG" :=
  ⟨by decide, by decide, by decide, rfl,
    (claim_C10 "out.gdb" "in.sql" (fun s => s ++ "+tables") "stops" "flatpolys"
      [("in.sql", "ORIG")] "ORIG" (by decide) (by decide) (by decide) rfl).1⟩

/-! ### Claim C1 -/

/-- Claim C1: for every cell of the final partition, the stored links are
exactly the stop_ids whose original BufferPolygon contains the cell's
representative point; in particular, for a cell whose points are all
covered by exactly the polygons of a stop set `S`, `links_for_cell`
returns exactly `S`.  (Stop ids are assumed non-null, as GTFS requires.) -/
theorem claim_C1 (polys : List Polygon) (h : ∀ q ∈ polys, q.stop_id ≠ "") :
    ∀ c ∈ (runStep1 polys).cells,
      links_for_cell (runStep1 polys).table c.oid =
          coveringStops polys (repPoint c.geometry) ∧
        ∀ S : Finset String, (∀ p ∈ c.geometry, coveringStops polys p = S) →
          links_for_cell (runStep1 polys).table c.oid = S := by
  intro c hc
  obtain ⟨c0, hc0, hkeep, rfl⟩ := mem_cleanup.mp hc
  dsimp only
  have hlinks := links_for_cell_step1 h hc0
  have hrep : repPoint c0.geometry ∈ c0.geometry :=
    repPoint_mem (flatten_geometry_ne_nil hc0)
  have htable : (runStep1 polys).table = addToStackedPts (step1Rows clusTol polys) := rfl
  exact ⟨hlinks, fun S hS => by rw [htable, hlinks, hS _ hrep]⟩

/-- Witness for C1 at a single one-point buffer polygon. -/
theorem claim_C1_witness :
    (∀ q ∈ [Polygon.mk "A" [((0 : ℤ), (0 : ℤ))]], q.stop_id ≠ "") ∧
      ∀ c ∈ (runStep1 [Polygon.mk "A" [((0 : ℤ), (0 : ℤ))]]).cells,
        links_for_cell (runStep1 [Polygon.mk "A" [((0 : ℤ), (0 : ℤ))]]).table c.oid =
            coveringStops [Polygon.mk "A" [((0 : ℤ), (0 : ℤ))]] (repPoint c.geometry) ∧
          ∀ S : Finset String,
            (∀ p ∈ c.geometry, coveringStops [Polygon.mk "A" [((0 : ℤ), (0 : ℤ))]] p = S) →
            links_for_cell (runStep1 [Polygon.mk "A" [((0 : ℤ), (0 : ℤ))]]).table c.oid = S :=
  ⟨by decide, claim_C1 [Polygon.mk "A" [((0 : ℤ), (0 : ℤ))]] (by decide)⟩

/-! ### Claim C2 -/

/-- Claim C2: flattening produces a planar partition, up to the snap
tolerance: the snapped image of every point covered by at least one input
polygon lies in exactly one output cell, and distinct output cells have
zero-measure (empty) intersection. -/
theorem claim_C2 (polys : List Polygon) :
    (∀ p : Point, (∃ q ∈ polys, p ∈ q.geometry) →
        (flatten clusTol polys).countP
          (fun c => snapPoint clusTol p ∈ c.geometry) = 1) ∧
      ∀ c1 ∈ flatten clusTol polys, ∀ c2 ∈ flatten clusTol polys, c1.oid ≠ c2.oid →
        (c1.geometry.filter (fun x => x ∈ c2.geometry)).length = 0 := by
  constructor
  · intro p hp
    apply flatten_countP_eq_one
    rw [mem_flattenDomain]
    obtain ⟨q, hq, hpq⟩ := hp
    exact ⟨q, hq, p, hpq, rfl⟩
  · intro c1 h1 c2 h2 hne
    rw [List.length_eq_zero, List.filter_eq_nil_iff]
    intro x hx
    simp only [decide_eq_true_eq]
    exact fun hx2 => flatten_disjoint h1 h2 hne hx hx2

/-- Witness for C2 at a single one-point buffer polygon. -/
theorem claim_C2_witness :
    (∃ q ∈ [Polygon.mk "A" [((0 : ℤ), (0 : ℤ))]], ((0 : ℤ), (0 : ℤ)) ∈ q.geometry) ∧
      (flatten clusTol [Polygon.mk "A" [((0 : ℤ), (0 : ℤ))]]).countP
        (fun c => snapPoint clusTol ((0 : ℤ), (0 : ℤ)) ∈ c.geometry) = 1 :=
  ⟨by decide, (claim_C2 [Polygon.mk "A" [((0 : ℤ), (0 : ℤ))]]).1 ((0 : ℤ), (0 : ℤ)) (by decide)⟩

/-! ### Claim C3 -/

/-- Claim C3: after cleanup, every cell of the final collection has nonzero
area and a non-empty link set (stop ids assumed non-null): all degenerate
and unattributed cells are gone. -/
theorem claim_C3 (polys : List Polygon) (h : ∀ q ∈ polys, q.stop_id ≠ "") :
    ∀ c ∈ (runStep1 polys).cells,
      c.shape_Area ≠ 0 ∧ links_for_cell (runStep1 polys).table c.oid ≠ ∅ := by
  intro c hc
  obtain ⟨c0, hc0, hkeep, rfl⟩ := mem_cleanup.mp hc
  push_neg at hkeep
  obtain ⟨harea, hfid⟩ := hkeep
  dsimp only
  refine ⟨harea, ?_⟩
  have hlinks := links_for_cell_step1 h hc0
  have htable : (runStep1 polys).table = addToStackedPts (step1Rows clusTol polys) := rfl
  rw [htable, hlinks]
  by_cases hE : (polys.filter (fun q => repPoint c0.geometry ∈ q.geometry)).isEmpty
  · exfalso
    apply hfid
    rw [List.mem_toFinset, mem_fidsToDelete]
    refine ⟨(c0.oid, ""), ?_, rfl, rfl⟩
    unfold step1Rows identityRows
    apply List.mem_flatMap.mpr
    refine ⟨(c0.oid, repPoint c0.geometry), mem_step1Pts hc0, ?_⟩
    unfold identityRowsFor
    rw [if_pos hE]
    exact List.mem_singleton.mpr rfl
  · obtain ⟨q, hq⟩ : ∃ q, q ∈ polys.filter (fun q => repPoint c0.geometry ∈ q.geometry) := by
      cases hfl : polys.filter (fun q => repPoint c0.geometry ∈ q.geometry) with
      | nil => rw [hfl] at hE; simp at hE
      | cons a t => exact ⟨a, hfl ▸ List.mem_cons_self a t⟩
    apply Finset.ne_empty_of_mem (a := q.stop_id)
    unfold coveringStops
    rw [List.mem_toFinset]
    exact List.mem_map_of_mem _ hq

/-- Witness for C3 at a single one-point buffer polygon. -/
theorem claim_C3_witness :
    (∀ q ∈ [Polygon.mk "B" [((3 : ℤ), (4 : ℤ))]], q.stop_id ≠ "") ∧
      ∀ c ∈ (runStep1 [Polygon.mk "B" [((3 : ℤ), (4 : ℤ))]]).cells,
        c.shape_Area ≠ 0 ∧
          links_for_cell (runStep1 [Polygon.mk "B" [((3 : ℤ), (4 : ℤ))]]).table c.oid ≠ ∅ :=
  ⟨by decide, claim_C3 [Polygon.mk "B" [((3 : ℤ), (4 : ℤ))]] (by decide)⟩

/-! ### Claim C9 -/

/-- Claim C9: flattening runs in the World Cylindrical Equal Area system
(WKID 54034) with the default cluster tolerance of 5 distance units:
snapping moves each coordinate by less than 5 units, distinct snapped
vertices stay at least 5 units apart (so vertices within the snapping
distance of a grid vertex merge into it), and every point of every
flattened cell is a snapped (grid) point, i.e. merging happened before
partitioning. -/
theorem claim_C9 :
    step1Env.outputCoordinateSystem = 54034 ∧
      clusTol = 5 ∧
      (∀ polys, runStep1 polys = postProcess clusTol polys) ∧
      (∀ a : ℤ, 0 ≤ a - snapCoord clusTol a ∧ a - snapCoord clusTol a < clusTol) ∧
      (∀ a b : ℤ, snapCoord clusTol a ≠ snapCoord clusTol b →
        clusTol ≤ |snapCoord clusTol a - snapCoord clusTol b|) ∧
      ∀ polys, ∀ c ∈ flatten clusTol polys, ∀ p ∈ c.geometry,
        snapPoint clusTol p = p := by
  refine ⟨rfl, rfl, fun _ => rfl, ?_, ?_, ?_⟩
  · exact fun a => snapCoord_displacement (by decide) a
  · exact fun a b => snapCoord_separation (by decide) a b
  · intro polys c hc p hp
    obtain ⟨i, hi, rfl⟩ := mem_flatten.mp hc
    have hmem := (mem_flattenCell_geometry.mp hp).1
    obtain ⟨q, hq, p0, hp0, rfl⟩ := mem_flattenDomain.mp hmem
    exact snapPoint_idem (by decide) p0

/-- Witness for C9: separation and snap-fixedness at concrete inputs. -/
theorem claim_C9_witness :
    (snapCoord clusTol 7 ≠ snapCoord clusTol 2) ∧
      clusTol ≤ |snapCoord clusTol 7 - snapCoord clusTol 2| ∧
      flattenCell clusTol [Polygon.mk "A" [((0 : ℤ), (0 : ℤ))]] 0 ∈
        flatten clusTol [Polygon.mk "A" [((0 : ℤ), (0 : ℤ))]] ∧
      ((0 : ℤ), (0 : ℤ)) ∈ (flattenCell clusTol [Polygon.mk "A" [((0 : ℤ), (0 : ℤ))]] 0).geometry ∧
      snapPoint clusTol ((0 : ℤ), (0 : ℤ)) = ((0 : ℤ), (0 : ℤ)) :=
  ⟨by decide, claim_C9.2.2.2.2.1 7 2 (by decide), by decide, by decide,
    claim_C9.2.2.2.2.2 [Polygon.mk "A" [((0 : ℤ), (0 : ℤ))]]
      (flattenCell clusTol [Polygon.mk "A" [((0 : ℤ), (0 : ℤ))]] 0) (by decide)
      ((0 : ℤ), (0 : ℤ)) (by decide)⟩

end BBB
